import Mathlib

set_option maxHeartbeats 1000000

namespace X402

/-- Character codes of a Lean string literal; used to transcribe the Python
string constants appearing in `server.py`.  Throughout the development a
Python `str` is modelled as a `List Nat` of Unicode code points and a Python
`bytes` as a `List Nat` of bytes. -/
def strLit (s : String) : List Nat := s.toList.map Char.toNat

/-- A Unicode scalar value: what a well-formed text code point may be
(below 0x110000 and not a UTF-16 surrogate). -/
def ValidCp (c : Nat) : Prop := c < 1114112 ∧ ¬ (55296 ≤ c ∧ c < 57344)

/-- Every code point of the string is a Unicode scalar value. -/
def ValidStr (s : List Nat) : Prop := ∀ c ∈ s, ValidCp c

instance (c : Nat) : Decidable (ValidCp c) := by unfold ValidCp; infer_instance

instance (s : List Nat) : Decidable (ValidStr s) := by unfold ValidStr; infer_instance

/-- The standard base64 alphabet (`base64.b64encode`): sextet to character code. -/
def b64char (n : Nat) : Nat :=
  if n < 26 then 65 + n
  else if n < 52 then 71 + n
  else if n < 62 then n - 4
  else if n = 62 then 43
  else 47

/-- Inverse of the base64 alphabet: character code back to sextet. -/
def b64index (c : Nat) : Option Nat :=
  if 65 ≤ c ∧ c ≤ 90 then some (c - 65)
  else if 97 ≤ c ∧ c ≤ 122 then some (c - 71)
  else if 48 ≤ c ∧ c ≤ 57 then some (c + 4)
  else if c = 43 then some 62
  else if c = 47 then some 63
  else none

/-- `base64.b64encode`: bytes to the character codes of the padded base64 text. -/
def b64encode : List Nat → List Nat
  | [] => []
  | [a] => [b64char (a / 4), b64char (a % 4 * 16), 61, 61]
  | [a, b] => [b64char (a / 4), b64char (a % 4 * 16 + b / 16), b64char (b % 16 * 4), 61]
  | a :: b :: c :: rest =>
      b64char (a / 4) :: b64char (a % 4 * 16 + b / 16) ::
      b64char (b % 16 * 4 + c / 64) :: b64char (c % 64) :: b64encode rest

/-- `base64.b64decode`: base64 character codes back to bytes (`none` on
text that is not well-padded base64). -/
def b64decode : List Nat → Option (List Nat)
  | [] => some []
  | c1 :: c2 :: c3 :: c4 :: rest =>
    match b64index c1, b64index c2 with
    | some s1, some s2 =>
      if c3 = 61 then
        if c4 = 61 ∧ rest = [] ∧ s2 % 16 = 0 then some [s1 * 4 + s2 / 16] else none
      else
        match b64index c3 with
        | some s3 =>
          if c4 = 61 then
            if rest = [] ∧ s3 % 4 = 0 then some [s1 * 4 + s2 / 16, s2 % 16 * 16 + s3 / 4]
            else none
          else
            match b64index c4, b64decode rest with
            | some s4, some bs =>
                some ((s1 * 4 + s2 / 16) :: (s2 % 16 * 16 + s3 / 4) :: (s3 % 4 * 64 + s4) :: bs)
            | _, _ => none
        | none => none
    | _, _ => none
  | _ => none

/-- Lowercase hexadecimal digit character code (as `json.dumps` emits). -/
def hexDig (n : Nat) : Nat := if n < 10 then 48 + n else 87 + n

/-- Hexadecimal digit character code back to its value (either case). -/
def unhex (c : Nat) : Option Nat :=
  if 48 ≤ c ∧ c ≤ 57 then some (c - 48)
  else if 97 ≤ c ∧ c ≤ 102 then some (c - 87)
  else if 65 ≤ c ∧ c ≤ 70 then some (c - 55)
  else none

/-- A JSON `\uXXXX` escape for a value below 0x10000. -/
def escU (n : Nat) : List Nat :=
  [92, 117, hexDig (n / 4096 % 16), hexDig (n / 256 % 16), hexDig (n / 16 % 16), hexDig (n % 16)]

/-- How `json.dumps` (default `ensure_ascii=True`) renders one code point inside
a JSON string: short escapes for quote, backslash and the common controls,
the printable ASCII range verbatim, `\uXXXX` otherwise, astral code points as a
surrogate pair of escapes. -/
def escapeCp (c : Nat) : List Nat :=
  if c = 34 then [92, 34]
  else if c = 92 then [92, 92]
  else if c = 8 then [92, 98]
  else if c = 9 then [92, 116]
  else if c = 10 then [92, 110]
  else if c = 12 then [92, 102]
  else if c = 13 then [92, 114]
  else if 32 ≤ c ∧ c ≤ 126 then [c]
  else if c < 65536 then escU c
  else escU (55296 + (c - 65536) / 1024) ++ escU (56320 + (c - 65536) % 1024)

/-- `json.dumps` rendering of a whole string body (between the quotes). -/
def escapeStr : List Nat → List Nat
  | [] => []
  | c :: rest => escapeCp c ++ escapeStr rest

/-- One JSON string escape sequence (the part after the backslash):
the code point it stands for and the remaining input. -/
def parseEsc : List Nat → Option (Nat × List Nat)
  | 34 :: r => some (34, r)
  | 92 :: r => some (92, r)
  | 47 :: r => some (47, r)
  | 98 :: r => some (8, r)
  | 116 :: r => some (9, r)
  | 110 :: r => some (10, r)
  | 102 :: r => some (12, r)
  | 114 :: r => some (13, r)
  | 117 :: h1 :: h2 :: h3 :: h4 :: r =>
    match unhex h1, unhex h2, unhex h3, unhex h4 with
    | some a, some b, some c, some d => some (a * 4096 + b * 256 + c * 16 + d, r)
    | _, _, _, _ => none
  | _ => none

/-- JSON string body parser (fuelled): consumes up to the closing quote and
returns the raw code units (surrogates not yet combined) and the rest. -/
def parseStrBody : Nat → List Nat → Option (List Nat × List Nat)
  | 0, _ => none
  | _ + 1, [] => none
  | fuel + 1, c :: rest =>
    if c = 34 then some ([], rest)
    else if c = 92 then
      match parseEsc rest with
      | some (n, r) =>
        match parseStrBody fuel r with
        | some (s, r2) => some (n :: s, r2)
        | none => none
      | none => none
    else if c < 32 then none
    else
      match parseStrBody fuel rest with
      | some (s, r2) => some (c :: s, r2)
      | none => none

/-- The UTF-16 code units a code point contributes to a JSON escape stream:
itself when below 0x10000, otherwise its surrogate pair. -/
def toRaw (c : Nat) : List Nat :=
  if c < 65536 then [c] else [55296 + (c - 65536) / 1024, 56320 + (c - 65536) % 1024]

/-- `toRaw` over a whole string. -/
def rawOf : List Nat → List Nat
  | [] => []
  | c :: rest => toRaw c ++ rawOf rest

/-- Combine adjacent surrogate escape pairs back into astral code points, as a
JSON parser does after reading `\uXXXX` sequences. -/
def deSurrogate : List Nat → List Nat
  | [] => []
  | [a] => [a]
  | a :: b :: rest =>
    if 55296 ≤ a ∧ a < 56320 ∧ 56320 ≤ b ∧ b < 57344 then
      ((a - 55296) * 1024 + (b - 56320) + 65536) :: deSurrogate rest
    else a :: deSurrogate (b :: rest)

/-- JSON string parser: the input starts just after the opening quote; returns
the decoded code points and the input after the closing quote. -/
def parseStr (l : List Nat) : Option (List Nat × List Nat) :=
  match parseStrBody (l.length + 1) l with
  | some (raw, rest) => some (deSurrogate raw, rest)
  | none => none

/-- Decimal digits of a number (fuelled helper). -/
def natDigitsF : Nat → Nat → List Nat
  | 0, _ => []
  | fuel + 1, n => if n < 10 then [48 + n] else natDigitsF fuel (n / 10) ++ [48 + n % 10]

/-- Decimal digit character codes of a number, as `json.dumps` prints an int. -/
def natDigits (n : Nat) : List Nat := natDigitsF (n + 1) n

/-- Greedy decimal accumulator: consume leading digits onto `acc`. -/
def parseNatFrom : Nat → List Nat → Nat × List Nat
  | acc, [] => (acc, [])
  | acc, c :: rest =>
    if 48 ≤ c ∧ c ≤ 57 then parseNatFrom (acc * 10 + (c - 48)) rest else (acc, c :: rest)

/-- JSON number (unsigned integer) parser: requires at least one digit. -/
def parseNatTok : List Nat → Option (Nat × List Nat)
  | [] => none
  | c :: rest =>
    if 48 ≤ c ∧ c ≤ 57 then some (parseNatFrom 0 (c :: rest)) else none

/-- The input does not begin with a decimal digit. -/
def notDigitHead : List Nat → Prop
  | [] => True
  | c :: _ => ¬ (48 ≤ c ∧ c ≤ 57)

/-- Strip an expected literal token off the front of the input. -/
def expectTok : List Nat → List Nat → Option (List Nat)
  | [], l => some l
  | _ :: _, [] => none
  | p :: ps, c :: cs => if c = p then expectTok ps cs else none

/-- UTF-8 bytes of one code point (`str.encode` on a scalar value). -/
def utf8EncodeCp (c : Nat) : List Nat :=
  if c < 128 then [c]
  else if c < 2048 then [192 + c / 64, 128 + c % 64]
  else if c < 65536 then [224 + c / 4096, 128 + c / 64 % 64, 128 + c % 64]
  else [240 + c / 262144, 128 + c / 4096 % 64, 128 + c / 64 % 64, 128 + c % 64]

/-- `str.encode('utf-8')`: code points to bytes. -/
def utf8Encode : List Nat → List Nat
  | [] => []
  | c :: rest => utf8EncodeCp c ++ utf8Encode rest

/-- One step of `bytes.decode('utf-8')`: the code point encoded at the head of
the byte list (1 to 4 bytes) and the remaining bytes; `none` on a malformed
head sequence. -/
def utf8Step : List Nat → Option (Nat × List Nat)
  | [] => none
  | b :: rest =>
    if b < 128 then some (b, rest)
    else
      match rest with
      | [] => none
      | b2 :: rest2 =>
        if 194 ≤ b ∧ b < 224 ∧ 128 ≤ b2 ∧ b2 < 192 then
          some ((b - 192) * 64 + (b2 - 128), rest2)
        else
          match rest2 with
          | [] => none
          | b3 :: rest3 =>
            if 224 ≤ b ∧ b < 240 ∧ 128 ≤ b2 ∧ b2 < 192 ∧ 128 ≤ b3 ∧ b3 < 192 then
              some ((b - 224) * 4096 + (b2 - 128) * 64 + (b3 - 128), rest3)
            else
              match rest3 with
              | [] => none
              | b4 :: rest4 =>
                if 240 ≤ b ∧ b < 245 ∧ 128 ≤ b2 ∧ b2 < 192 ∧ 128 ≤ b3 ∧ b3 < 192
                    ∧ 128 ≤ b4 ∧ b4 < 192 then
                  some ((b - 240) * 262144 + (b2 - 128) * 4096 + (b3 - 128) * 64
                    + (b4 - 128), rest4)
                else none

/-- Fuelled loop of `bytes.decode('utf-8')` over `utf8Step`. -/
def utf8DecodeF : Nat → List Nat → Option (List Nat)
  | 0, _ => none
  | _ + 1, [] => some []
  | fuel + 1, b :: rest =>
    match utf8Step (b :: rest) with
    | some (c, r) =>
      match utf8DecodeF fuel r with
      | some cs => some (c :: cs)
      | none => none
    | none => none

/-- `bytes.decode('utf-8')`: bytes back to code points (`none` on malformed
sequences). -/
def utf8Decode (l : List Nat) : Option (List Nat) := utf8DecodeF (l.length + 1) l

/-- Left-fold value of a decimal digit string on top of an accumulator. -/
def digitsVal : Nat → List Nat → Nat
  | acc, [] => acc
  | acc, c :: rest => digitsVal (acc * 10 + (c - 48)) rest

/-- The client-side payment proof of the x402 protocol (`payment_payload` in
`manual_x402_solana_flow`): `x402Version`, `scheme`, `network`, `payload`. -/
structure PaymentProof where
  x402Version : Nat
  scheme : List Nat
  network : List Nat
  payload : List Nat
  deriving DecidableEq, Repr

/-- Literal fragments of `json.dumps(payment_payload)` with Python's default
separators and the dict's insertion order. -/
def litVer : List Nat := strLit "\x7b\"x402Version\": "

/-- Literal fragment before the `scheme` string. -/
def litSch : List Nat := strLit ", \"scheme\": \""

/-- Literal fragment before the `network` string. -/
def litNet : List Nat := strLit ", \"network\": \""

/-- Literal fragment before the `payload` string. -/
def litPay : List Nat := strLit ", \"payload\": \""

/-- Closing brace of the serialized object. -/
def litEnd : List Nat := strLit "\x7d"

/-- `json.dumps(payment_payload)`: the exact character stream Python produces
for the payment proof dict (keys in insertion order, default separators,
`ensure_ascii` escaping). -/
def jsonDumpsProof (p : PaymentProof) : List Nat :=
  litVer ++ natDigits p.x402Version ++ litSch ++ escapeStr p.scheme ++ [34] ++
  litNet ++ escapeStr p.network ++ [34] ++ litPay ++ escapeStr p.payload ++ [34] ++ litEnd

/-- Parser of the serialized payment proof object: inverts `jsonDumpsProof`
(the shape a JSON parse of the header body recovers). -/
def parsePaymentProof (l : List Nat) : Option PaymentProof :=
  match expectTok litVer l with
  | none => none
  | some l1 =>
    match parseNatTok l1 with
    | none => none
    | some (v, l2) =>
      match expectTok litSch l2 with
      | none => none
      | some l3 =>
        match parseStr l3 with
        | none => none
        | some (scheme, l4) =>
          match expectTok litNet l4 with
          | none => none
          | some l5 =>
            match parseStr l5 with
            | none => none
            | some (network, l6) =>
              match expectTok litPay l6 with
              | none => none
              | some l7 =>
                match parseStr l7 with
                | none => none
                | some (payload, l8) =>
                  match expectTok litEnd l8 with
                  | none => none
                  | some l9 =>
                      if l9 = [] then some ⟨v, scheme, network, payload⟩ else none

/-- The `X-PAYMENT` header value built at line 152 of `server.py`:
`base64.b64encode(json.dumps(payment_payload).encode('utf-8'))`. -/
def encodeHeader (p : PaymentProof) : List Nat :=
  b64encode (utf8Encode (jsonDumpsProof p))

/-- Modelled from the spec: decoding a proof header back (the decoder lives in
the `fastapi_x402` middleware, outside this repository's sources) —
"base64 of a UTF-8 JSON object" read in reverse: base64-decode, UTF-8-decode,
JSON-parse the proof object. -/
def decodeHeader (h : List Nat) : Option PaymentProof :=
  match b64decode h with
  | some bytes =>
    match utf8Decode bytes with
    | some cps => parsePaymentProof cps
    | none => none
  | none => none

/-- A parsed JSON value, as Python's `response.json()` yields it (dicts keep
insertion order, numbers restricted to integers, which is all the flow uses). -/
inductive Json where
  | null : Json
  | bool : Bool → Json
  | num : Int → Json
  | str : List Nat → Json
  | arr : List Json → Json
  | obj : List (List Nat × Json) → Json

/-- Key lookup in the association list of a JSON object. -/
def lookupKV : List (List Nat × Json) → List Nat → Option Json
  | [], _ => none
  | (k, v) :: rest, key => if k = key then some v else lookupKV rest key

/-- Python `d[key]` on a parsed JSON value: `none` models the `KeyError` /
`TypeError` the subscript raises when the key is missing or the value is not
a dict. -/
def Json.get : Json → List Nat → Option Json
  | .obj kvs, key => lookupKV kvs key
  | _, _ => none

/-- Python truthiness of a parsed JSON value (`not x` in the flow): `None`,
`False`, `0`, empty string, empty list and empty dict are falsy. -/
def Json.falsy : Json → Bool
  | .null => true
  | .bool b => !b
  | .num n => n = 0
  | .str s => s.isEmpty
  | .arr l => l.isEmpty
  | .obj l => l.isEmpty

/-- Python `x[0]` on a parsed JSON value: the head of a list; `none` models the
exception otherwise raised on this line or the next (indexing a dict/number
raises here; indexing a truthy string succeeds in Python but the following
`['payTo']` subscript on the resulting character then raises — the model
collapses both failure paths into this step, which no claim distinguishes). -/
def Json.index0 : Json → Option Json
  | .arr (x :: _) => some x
  | _ => none

/-- A JSON value that is a string, as `PublicKey(...)` requires. -/
def Json.asStr : Json → Option (List Nat)
  | .str s => some s
  | _ => none

/-- An HTTP response as the flow sees it: status code and parsed JSON body
(the transport interface of the spec, `get(url, headers?) -> (status, json_body)`). -/
structure Response where
  status : Nat
  body : Json

/-- One observable side effect of the orchestration: an HTTP GET (with its
optional `X-PAYMENT` header), the RPC block-reference read, an RPC broadcast
(never emitted by this flow — present so its absence is expressible), or a
signing-service call with its outcome. -/
inductive Event where
  | httpGet (url : List Nat) (xPayment : Option (List Nat))
  | rpcGetLatestBlockhash
  | rpcSendTransaction
  | signCall (address : List Nat) (txB64 : List Nat) (result : Option (List Nat))
  deriving DecidableEq

/-- `solana.system_program.TransferParams`: sender, recipient, lamports. -/
structure TransferParams where
  fromPubkey : List Nat
  toPubkey : List Nat
  lamports : Nat

/-- `solana.transaction.Transaction` as the flow builds it: the added transfer
instructions, plus the `recent_blockhash` and `fee_payer` fields set afterwards. -/
structure Transaction where
  instructions : List TransferParams
  recentBlockhash : Option (List Nat)
  feePayer : Option (List Nat)

/-- The Python exceptions the orchestration can raise, in the spec's
error taxonomy: `noPaymentOptions` is the `ValueError` of line 105,
`keyError` a missing dict key (the spec's `MalformedRequirement`),
`typeError` a wrongly-typed value, `upstreamUnavailable` an RPC failure and
`signingFailed` a signing-service failure (each carrying the external
library's message). -/
inductive FlowError where
  | noPaymentOptions
  | keyError (key : List Nat)
  | typeError (msg : List Nat)
  | upstreamUnavailable (msg : List Nat)
  | signingFailed (msg : List Nat)
  deriving DecidableEq

/-- Python `str(e)` of each modelled exception, as interpolated into the
wrapper's error message (a `KeyError` prints its key quoted). -/
def errStr : FlowError → List Nat
  | .noPaymentOptions => strLit "Server returned 402 but no payment requirements were listed."
  | .keyError key => strLit "'" ++ key ++ strLit "'"
  | .typeError msg => msg
  | .upstreamUnavailable msg => msg
  | .signingFailed msg => msg

/-- The external world of one orchestrator invocation: the agent's configured
address, the HTTP transport (a response for each URL/header combination), the
RPC `get_latest_blockhash` outcome, the opaque Solana transaction serializer
(second argument: `require_all_signatures`), and the CDP signing service
(address and base64 transaction in, signature out). -/
structure Env where
  agentAddress : List Nat
  http : List Nat → Option (List Nat) → Response
  getLatestBlockhash : Except (List Nat) (List Nat)
  serializeTx : Transaction → Bool → List Nat
  sign : List Nat → List Nat → Except (List Nat) (List Nat)

/-- The target URL of both requests (line 94 of `server.py`). -/
def targetUrl : List Nat := strLit "http://127.0.0.1:8000/api/data-feed"

/-- The process-wide network constant (line 36 of `server.py`). -/
def NETWORK : List Nat := strLit "solana"

/-- `manual_x402_solana_flow` of `server.py`: the whole client-side x402
orchestration — first GET; non-402 returned as-is; 402 body's `accepts`
checked, first descriptor chosen, its `payTo` read; blockhash fetched; a
1-lamport transfer from the agent to `payTo` built with the agent as fee
payer; serialized without requiring all signatures, base64-encoded, signed by
the CDP service; the proof header built and the request retried once.  The
result pairs the returned value (or raised exception) with the trace of
external side effects. -/
def manual_x402_solana_flow (env : Env) : Except FlowError Json × List Event :=
  let first := env.http targetUrl none
  let ev0 : List Event := [.httpGet targetUrl none]
  if first.status ≠ 402 then (.ok first.body, ev0)
  else
    match first.body.get (strLit "accepts") with
    | none => (.error (.keyError (strLit "accepts")), ev0)
    | some accepts =>
      if accepts.falsy then (.error .noPaymentOptions, ev0)
      else
        match accepts.index0 with
        | none => (.error (.typeError (strLit "accepts is not a non-empty list")), ev0)
        | some requirements =>
          match requirements.get (strLit "payTo") with
          | none => (.error (.keyError (strLit "payTo")), ev0)
          | some payToJson =>
            match payToJson.asStr with
            | none => (.error (.typeError (strLit "payTo is not a string")), ev0)
            | some payTo =>
              let ev1 := ev0 ++ [.rpcGetLatestBlockhash]
              match env.getLatestBlockhash with
              | .error msg => (.error (.upstreamUnavailable msg), ev1)
              | .ok recentBlockhash =>
                let transaction : Transaction :=
                  ⟨[⟨env.agentAddress, payTo, 1⟩], some recentBlockhash, some env.agentAddress⟩
                let serializedTxB64 := b64encode (env.serializeTx transaction false)
                match env.sign env.agentAddress serializedTxB64 with
                | .error msg =>
                    (.error (.signingFailed msg),
                     ev1 ++ [.signCall env.agentAddress serializedTxB64 none])
                | .ok signedTxB64 =>
                  let proof : PaymentProof := ⟨1, strLit "exact", NETWORK, signedTxB64⟩
                  let header := encodeHeader proof
                  let second := env.http targetUrl (some header)
                  (.ok second.body,
                   ev1 ++ [.signCall env.agentAddress serializedTxB64 (some signedTxB64),
                           .httpGet targetUrl (some header)])

/-- An HTTP response as the outer route handler produces it. -/
structure HandlerOut where
  status : Nat
  body : Json

/-- `run_zerebro_agent_wrapper` of `server.py`: runs the flow; a normal return
is passed through (FastAPI serves it with status 200), any exception becomes a
500 `JSONResponse` whose `detail` is the interpolated error message. -/
def run_zerebro_agent_wrapper (env : Env) : HandlerOut :=
  match (manual_x402_solana_flow env).1 with
  | .ok result => ⟨200, result⟩
  | .error e =>
      ⟨500, Json.obj [(strLit "detail",
        Json.str (strLit "Wrapper Execution Error: " ++ errStr e))]⟩

/-- The `X-PAYMENT` header values of the GET requests in a trace, in order. -/
def sentHeaders (evs : List Event) : List (List Nat) :=
  evs.filterMap fun e =>
    match e with
    | .httpGet _ (some h) => some h
    | _ => none

/-- The URLs of the GET requests in a trace, in order. -/
def requestUrls (evs : List Event) : List (List Nat) :=
  evs.filterMap fun e =>
    match e with
    | .httpGet url _ => some url
    | _ => none

/-- Whether an event is a signing-service call. -/
def isSignEvent : Event → Bool
  | .signCall _ _ _ => true
  | _ => false

/-- Whether an event broadcasts a transaction to the chain. -/
def isBroadcastEvent : Event → Bool
  | .rpcSendTransaction => true
  | _ => false

/-- Scanning the trace from the start: no header-carrying GET (the retry) may
occur before a signing-service call that returned a signature. -/
def retryOnlyAfterSuccessfulSign : List Event → Bool
  | [] => true
  | .httpGet _ (some _) :: _ => false
  | .signCall _ _ (some _) :: _ => true
  | _ :: rest => retryOnlyAfterSuccessfulSign rest

/-- The first descriptor of the first response's `accepts` list, as the flow
would choose it. -/
def chosenDescriptor (env : Env) : Option Json :=
  ((env.http targetUrl none).body.get (strLit "accepts")).bind Json.index0

/-- A payment requirement descriptor as the server's 402 body carries it. -/
def demoDescriptor (scheme network payTo asset amount : String) : Json :=
  Json.obj [(strLit "scheme", Json.str (strLit scheme)),
            (strLit "network", Json.str (strLit network)),
            (strLit "payTo", Json.str (strLit payTo)),
            (strLit "asset", Json.str (strLit asset)),
            (strLit "amount", Json.str (strLit amount))]

/-- A `PaymentRequiredResponse` body with the given `accepts` list. -/
def body402 (descriptors : List Json) : Json :=
  Json.obj [(strLit "accepts", Json.arr descriptors)]

/-- The protected endpoint's success body (shape of `premium_data_endpoint`). -/
def dataBody : Json :=
  Json.obj [(strLit "data", Json.str (strLit "SUCCESS"))]

/-- A concrete external world for evaluating the flow: the first request gets
the given status and body, the retry gets `200` with `dataBody`; RPC, signing
and the opaque serializer are fixed as given. -/
def demoEnv (firstStatus : Nat) (firstBody : Json)
    (rpc : Except (List Nat) (List Nat)) (signRes : Except (List Nat) (List Nat)) : Env :=
  ⟨strLit "AgentAddr111",
   fun _ header =>
     match header with
     | none => ⟨firstStatus, firstBody⟩
     | some _ => ⟨200, dataBody⟩,
   rpc,
   fun _ _ => [0, 1, 2],
   fun _ _ => signRes⟩

/-- Happy-path world: 402 with one plain descriptor, working RPC and signer. -/
def envHappy : Env :=
  demoEnv 402 (body402 [demoDescriptor "exact" "solana" "Merchant999" "USDC" "0.01"])
    (.ok (strLit "Blockhash11")) (.ok (strLit "SignedTx=="))

/-- World whose 402 offers a descriptor with a scheme and network different
from the constants the flow writes into the proof. -/
def envOtherScheme : Env :=
  demoEnv 402 (body402 [demoDescriptor "otherscheme" "base" "Merchant999" "USDC" "0.01"])
    (.ok (strLit "Blockhash11")) (.ok (strLit "SignedTx=="))

/-- Same world as `envHappy` except for the descriptor's `asset` and `amount`
fields (same `payTo`, same RPC, signer and serializer). -/
def envOtherAmount : Env :=
  demoEnv 402 (body402 [demoDescriptor "exact" "solana" "Merchant999" "DAI" "123.45"])
    (.ok (strLit "Blockhash11")) (.ok (strLit "SignedTx=="))

/-- World whose 402 carries an empty `accepts` list. -/
def envEmptyAccepts : Env :=
  demoEnv 402 (body402 []) (.ok (strLit "Blockhash11")) (.ok (strLit "SignedTx=="))

/-- World whose first response is a plain 200. -/
def envNo402 : Env :=
  demoEnv 200 dataBody (.ok (strLit "Blockhash11")) (.ok (strLit "SignedTx=="))

/-- World whose RPC service is unreachable. -/
def envRpcDown : Env :=
  demoEnv 402 (body402 [demoDescriptor "exact" "solana" "Merchant999" "USDC" "0.01"])
    (.error (strLit "rpc connection refused")) (.ok (strLit "SignedTx=="))

lemma b64index_b64char : ∀ n, n < 64 → b64index (b64char n) = some n := by decide

lemma b64char_ne_61 : ∀ n, n < 64 → b64char n ≠ 61 := by decide

/-- Decoding inverts encoding on byte lists (the Python
`base64.b64decode ∘ base64.b64encode` identity). -/
theorem b64_roundtrip : ∀ bs : List Nat, (∀ b ∈ bs, b < 256) → b64decode (b64encode bs) = some bs
  | [], _ => rfl
  | [a], h => by
    have ha : a < 256 := h a (by simp)
    show b64decode [b64char (a / 4), b64char (a % 4 * 16), 61, 61] = some [a]
    simp only [b64decode, b64index_b64char _ (show a / 4 < 64 by omega),
      b64index_b64char _ (show a % 4 * 16 < 64 by omega)]
    have h16 : a % 4 * 16 % 16 = 0 := by omega
    simp [h16]
    omega
  | [a, b], h => by
    have ha : a < 256 := h a (by simp)
    have hb : b < 256 := h b (by simp)
    show b64decode [b64char (a / 4), b64char (a % 4 * 16 + b / 16), b64char (b % 16 * 4), 61]
        = some [a, b]
    simp only [b64decode, b64index_b64char _ (show a / 4 < 64 by omega),
      b64index_b64char _ (show a % 4 * 16 + b / 16 < 64 by omega),
      b64index_b64char _ (show b % 16 * 4 < 64 by omega)]
    have hne : b64char (b % 16 * 4) ≠ 61 := b64char_ne_61 _ (by omega)
    have h4 : b % 16 * 4 % 4 = 0 := by omega
    simp [hne, h4]
    omega
  | a :: b :: c :: rest, h => by
    have ha : a < 256 := h a (by simp)
    have hb : b < 256 := h b (by simp)
    have hc : c < 256 := h c (by simp)
    have ih : b64decode (b64encode rest) = some rest :=
      b64_roundtrip rest (fun y hy => h y (by simp [hy]))
    show b64decode (b64char (a / 4) :: b64char (a % 4 * 16 + b / 16) ::
        b64char (b % 16 * 4 + c / 64) :: b64char (c % 64) :: b64encode rest)
        = some (a :: b :: c :: rest)
    simp only [b64decode, b64index_b64char _ (show a / 4 < 64 by omega),
      b64index_b64char _ (show a % 4 * 16 + b / 16 < 64 by omega),
      b64index_b64char _ (show b % 16 * 4 + c / 64 < 64 by omega),
      b64index_b64char _ (show c % 64 < 64 by omega)]
    have hne3 : b64char (b % 16 * 4 + c / 64) ≠ 61 := b64char_ne_61 _ (by omega)
    have hne4 : b64char (c % 64) ≠ 61 := b64char_ne_61 _ (by omega)
    simp [hne3, hne4, ih]
    omega

lemma expectTok_append : ∀ pat rest : List Nat, expectTok pat (pat ++ rest) = some rest
  | [], _ => rfl
  | p :: ps, rest => by
    show expectTok (p :: ps) (p :: (ps ++ rest)) = some rest
    simp [expectTok, expectTok_append ps rest]

lemma natDigitsF_succ (fuel n : Nat) :
    natDigitsF (fuel + 1) n =
      if n < 10 then [48 + n] else natDigitsF fuel (n / 10) ++ [48 + n % 10] := rfl

lemma natDigitsF_digits : ∀ fuel n, ∀ c ∈ natDigitsF fuel n, 48 ≤ c ∧ c ≤ 57
  | 0, _ => by simp [natDigitsF]
  | fuel + 1, n => by
    intro c hc
    rw [natDigitsF_succ] at hc
    by_cases h10 : n < 10
    · rw [if_pos h10] at hc
      simp at hc
      omega
    · rw [if_neg h10, List.mem_append] at hc
      rcases hc with hc | hc
      · exact natDigitsF_digits fuel (n / 10) c hc
      · simp at hc
        omega

lemma digitsVal_app (xs : List Nat) : ∀ (ys : List Nat) (acc : Nat),
    digitsVal acc (xs ++ ys) = digitsVal (digitsVal acc xs) ys := by
  induction xs with
  | nil => intro ys acc; rfl
  | cons x xs ih =>
    intro ys acc
    show digitsVal (acc * 10 + (x - 48)) (xs ++ ys)
        = digitsVal (digitsVal (acc * 10 + (x - 48)) xs) ys
    exact ih ys _

lemma digitsVal_natDigitsF : ∀ fuel n acc, n ≤ fuel →
    ∃ k, 0 < k ∧ n < k ∧ digitsVal acc (natDigitsF (fuel + 1) n) = acc * k + n := by
  intro fuel
  induction fuel with
  | zero =>
    intro n acc hn
    refine ⟨10, by omega, by omega, ?_⟩
    have h0 : n = 0 := by omega
    subst h0
    show acc * 10 + (48 + 0 - 48) = acc * 10 + 0
    omega
  | succ fuel ih =>
    intro n acc hn
    by_cases h10 : n < 10
    · refine ⟨10, by omega, by omega, ?_⟩
      rw [natDigitsF_succ, if_pos h10]
      show acc * 10 + (48 + n - 48) = acc * 10 + n
      omega
    · have hdiv : n / 10 ≤ fuel := by omega
      obtain ⟨k, hk0, hkgt, hk⟩ := ih (n / 10) acc hdiv
      refine ⟨k * 10, by omega, by omega, ?_⟩
      rw [natDigitsF_succ (fuel + 1) n, if_neg h10, digitsVal_app, hk]
      show (acc * k + n / 10) * 10 + (48 + n % 10 - 48) = acc * (k * 10) + n
      rw [show acc * (k * 10) = acc * k * 10 from by ring]
      omega

lemma parseNatFrom_digits : ∀ ds rest acc, (∀ c ∈ ds, 48 ≤ c ∧ c ≤ 57) → notDigitHead rest →
    parseNatFrom acc (ds ++ rest) = (digitsVal acc ds, rest)
  | [], [], acc => fun _ _ => rfl
  | [], c :: r, acc => by
    intro _ hrest
    show (if 48 ≤ c ∧ c ≤ 57 then parseNatFrom (acc * 10 + (c - 48)) r else (acc, c :: r))
        = (acc, c :: r)
    exact if_neg hrest
  | d :: ds, rest, acc => by
    intro hds hrest
    have hd : 48 ≤ d ∧ d ≤ 57 := hds d (by simp)
    show (if 48 ≤ d ∧ d ≤ 57 then parseNatFrom (acc * 10 + (d - 48)) (ds ++ rest)
          else (acc, d :: (ds ++ rest))) = (digitsVal acc (d :: ds), rest)
    rw [if_pos hd]
    exact parseNatFrom_digits ds rest _ (fun c hc => hds c (by simp [hc])) hrest

lemma parseNatTok_natDigits (n : Nat) (rest : List Nat) (hrest : notDigitHead rest) :
    parseNatTok (natDigits n ++ rest) = some (n, rest) := by
  obtain ⟨k, hk0, hkgt, hk⟩ := digitsVal_natDigitsF n n 0 (Nat.le_refl n)
  have hdigits : ∀ c ∈ natDigits n, 48 ≤ c ∧ c ≤ 57 := natDigitsF_digits (n + 1) n
  have hval : digitsVal 0 (natDigits n) = n := by
    unfold natDigits
    omega
  cases hcons : natDigits n with
  | nil =>
    exfalso
    rw [show natDigits n = natDigitsF (n + 1) n from rfl, natDigitsF_succ] at hcons
    by_cases h10 : n < 10
    · rw [if_pos h10] at hcons
      exact absurd hcons (by simp)
    · rw [if_neg h10] at hcons
      exact absurd hcons (by simp)
  | cons d ds =>
    have hd : 48 ≤ d ∧ d ≤ 57 := by
      have := hdigits d
      rw [hcons] at this
      exact this (by simp)
    have hparse : parseNatFrom 0 ((d :: ds) ++ rest) = (digitsVal 0 (d :: ds), rest) := by
      refine parseNatFrom_digits (d :: ds) rest 0 ?_ hrest
      intro c hc
      have := hdigits c
      rw [hcons] at this
      exact this hc
    rw [hcons] at hval
    show (if 48 ≤ d ∧ d ≤ 57 then some (parseNatFrom 0 (d :: (ds ++ rest))) else none)
        = some (n, rest)
    rw [if_pos hd, show d :: (ds ++ rest) = (d :: ds) ++ rest from rfl, hparse, hval]

lemma utf8Encode_ascii : ∀ l : List Nat, (∀ c ∈ l, c < 128) → utf8Encode l = l
  | [], _ => rfl
  | c :: rest, h => by
    have hc : c < 128 := h c (by simp)
    simp only [utf8Encode, utf8EncodeCp, if_pos hc, List.cons_append, List.nil_append]
    rw [utf8Encode_ascii rest (fun x hx => h x (by simp [hx]))]

lemma utf8Step_ascii (c : Nat) (rest : List Nat) (hc : c < 128) :
    utf8Step (c :: rest) = some (c, rest) := by
  simp [utf8Step, hc]

lemma utf8DecodeF_ascii : ∀ fuel (l : List Nat), (∀ c ∈ l, c < 128) →
    l.length + 1 ≤ fuel → utf8DecodeF fuel l = some l := by
  intro fuel
  induction fuel with
  | zero => intro l _ hf; omega
  | succ fuel ih =>
    intro l hl hf
    cases l with
    | nil => rfl
    | cons c rest =>
      have hc : c < 128 := hl c (by simp)
      have hr : utf8DecodeF fuel rest = some rest := by
        refine ih rest (fun x hx => hl x (by simp [hx])) ?_
        simp at hf
        omega
      show utf8DecodeF (fuel + 1) (c :: rest) = some (c :: rest)
      rw [show utf8DecodeF (fuel + 1) (c :: rest) =
        (match utf8Step (c :: rest) with
         | some (x, r) =>
           (match utf8DecodeF fuel r with
            | some cs => some (x :: cs)
            | none => none)
         | none => none) from rfl, utf8Step_ascii c rest hc]
      show (match utf8DecodeF fuel rest with
            | some cs => some (c :: cs)
            | none => none) = some (c :: rest)
      rw [hr]

lemma utf8Decode_ascii (l : List Nat) (h : ∀ c ∈ l, c < 128) : utf8Decode l = some l :=
  utf8DecodeF_ascii (l.length + 1) l h (Nat.le_refl _)

lemma unhex_hexDig : ∀ n, n < 16 → unhex (hexDig n) = some n := by decide

lemma parseEsc_escU (n : Nat) (hn : n < 65536) (tail : List Nat) :
    parseEsc (117 :: hexDig (n / 4096 % 16) :: hexDig (n / 256 % 16) :: hexDig (n / 16 % 16) ::
      hexDig (n % 16) :: tail) = some (n, tail) := by
  simp only [parseEsc, unhex_hexDig _ (Nat.mod_lt _ (by decide)),
    unhex_hexDig _ (Nat.mod_lt _ (by decide)), unhex_hexDig _ (Nat.mod_lt _ (by decide)),
    unhex_hexDig _ (Nat.mod_lt _ (by decide))]
  have harith : n / 4096 % 16 * 4096 + n / 256 % 16 * 256 + n / 16 % 16 * 16 + n % 16 = n := by
    omega
  rw [harith]

lemma escU_append (n : Nat) (tail : List Nat) :
    escU n ++ tail = 92 :: 117 :: hexDig (n / 4096 % 16) :: hexDig (n / 256 % 16) ::
      hexDig (n / 16 % 16) :: hexDig (n % 16) :: tail := rfl

lemma parseStrBody_escU (n : Nat) (hn : n < 65536) (fuel : Nat) (tail : List Nat) :
    parseStrBody (fuel + 1) (escU n ++ tail) =
      (match parseStrBody fuel tail with
       | some (s, r2) => some (n :: s, r2)
       | none => none) := by
  rw [escU_append]
  simp only [parseStrBody, parseEsc_escU n hn tail]
  simp

lemma parseStrBody_esc (f v e : Nat) (tail : List Nat)
    (he : parseEsc (e :: tail) = some (v, tail)) :
    parseStrBody (f + 1) (92 :: e :: tail) =
      (match parseStrBody f tail with
       | some (s, r2) => some (v :: s, r2)
       | none => none) := by
  simp only [parseStrBody, he]
  simp

/-- The string-body parser inverts the serializer's escaping: parsing the
escaped body followed by the closing quote recovers the raw code units and
leaves the rest of the input untouched. -/
lemma parseStrBody_escape : ∀ (s : List Nat), ValidStr s → ∀ (rest : List Nat) (fuel : Nat),
    (rawOf s).length + 1 ≤ fuel →
    parseStrBody fuel (escapeStr s ++ (34 :: rest)) = some (rawOf s, rest)
  | [], _ => by
    intro rest fuel hf
    obtain ⟨f, rfl⟩ : ∃ f, fuel = f + 1 := ⟨fuel - 1, by omega⟩
    show parseStrBody (f + 1) (34 :: rest) = some ([], rest)
    simp [parseStrBody, rawOf]
  | c :: s', hv => by
    intro rest fuel hf
    have hvc : ValidCp c := hv c (by simp)
    have hvs' : ValidStr s' := fun x hx => hv x (by simp [hx])
    have hraw : rawOf (c :: s') = toRaw c ++ rawOf s' := rfl
    have hesc : escapeStr (c :: s') = escapeCp c ++ escapeStr s' := rfl
    rw [hraw, hesc]
    by_cases h34 : c = 34
    · subst h34
      rw [hraw, show toRaw 34 = [34] from rfl] at hf
      simp at hf
      obtain ⟨f, rfl⟩ : ∃ f, fuel = f + 1 := ⟨fuel - 1, by omega⟩
      have ih := parseStrBody_escape s' hvs' rest f (by omega)
      show parseStrBody (f + 1) (92 :: 34 :: (escapeStr s' ++ (34 :: rest)))
          = some (toRaw 34 ++ rawOf s', rest)
      rw [parseStrBody_esc f 34 34 _ rfl, ih]
      rfl
    · by_cases h92 : c = 92
      · subst h92
        rw [hraw, show toRaw 92 = [92] from rfl] at hf
        simp at hf
        obtain ⟨f, rfl⟩ : ∃ f, fuel = f + 1 := ⟨fuel - 1, by omega⟩
        have ih := parseStrBody_escape s' hvs' rest f (by omega)
        show parseStrBody (f + 1) (92 :: 92 :: (escapeStr s' ++ (34 :: rest)))
            = some (toRaw 92 ++ rawOf s', rest)
        rw [parseStrBody_esc f 92 92 _ rfl, ih]
        rfl
      · by_cases h8 : c = 8
        · subst h8
          rw [hraw, show toRaw 8 = [8] from rfl] at hf
          simp at hf
          obtain ⟨f, rfl⟩ : ∃ f, fuel = f + 1 := ⟨fuel - 1, by omega⟩
          have ih := parseStrBody_escape s' hvs' rest f (by omega)
          show parseStrBody (f + 1) (92 :: 98 :: (escapeStr s' ++ (34 :: rest)))
              = some (toRaw 8 ++ rawOf s', rest)
          rw [parseStrBody_esc f 8 98 _ rfl, ih]
          rfl
        · by_cases h9 : c = 9
          · subst h9
            rw [hraw, show toRaw 9 = [9] from rfl] at hf
            simp at hf
            obtain ⟨f, rfl⟩ : ∃ f, fuel = f + 1 := ⟨fuel - 1, by omega⟩
            have ih := parseStrBody_escape s' hvs' rest f (by omega)
            show parseStrBody (f + 1) (92 :: 116 :: (escapeStr s' ++ (34 :: rest)))
                = some (toRaw 9 ++ rawOf s', rest)
            rw [parseStrBody_esc f 9 116 _ rfl, ih]
            rfl
          · by_cases h10 : c = 10
            · subst h10
              rw [hraw, show toRaw 10 = [10] from rfl] at hf
              simp at hf
              obtain ⟨f, rfl⟩ : ∃ f, fuel = f + 1 := ⟨fuel - 1, by omega⟩
              have ih := parseStrBody_escape s' hvs' rest f (by omega)
              show parseStrBody (f + 1) (92 :: 110 :: (escapeStr s' ++ (34 :: rest)))
                  = some (toRaw 10 ++ rawOf s', rest)
              rw [parseStrBody_esc f 10 110 _ rfl, ih]
              rfl
            · by_cases h12 : c = 12
              · subst h12
                rw [hraw, show toRaw 12 = [12] from rfl] at hf
                simp at hf
                obtain ⟨f, rfl⟩ : ∃ f, fuel = f + 1 := ⟨fuel - 1, by omega⟩
                have ih := parseStrBody_escape s' hvs' rest f (by omega)
                show parseStrBody (f + 1) (92 :: 102 :: (escapeStr s' ++ (34 :: rest)))
                    = some (toRaw 12 ++ rawOf s', rest)
                rw [parseStrBody_esc f 12 102 _ rfl, ih]
                rfl
              · by_cases h13 : c = 13
                · subst h13
                  rw [hraw, show toRaw 13 = [13] from rfl] at hf
                  simp at hf
                  obtain ⟨f, rfl⟩ : ∃ f, fuel = f + 1 := ⟨fuel - 1, by omega⟩
                  have ih := parseStrBody_escape s' hvs' rest f (by omega)
                  show parseStrBody (f + 1) (92 :: 114 :: (escapeStr s' ++ (34 :: rest)))
                      = some (toRaw 13 ++ rawOf s', rest)
                  rw [parseStrBody_esc f 13 114 _ rfl, ih]
                  rfl
                · by_cases hprint : 32 ≤ c ∧ c ≤ 126
                  · have htraw : toRaw c = [c] := by
                      unfold toRaw; rw [if_pos (by omega)]
                    have hecp : escapeCp c = [c] := by
                      unfold escapeCp
                      rw [if_neg h34, if_neg h92, if_neg h8, if_neg h9, if_neg h10, if_neg h12,
                        if_neg h13, if_pos hprint]
                    rw [hraw, htraw] at hf
                    simp at hf
                    obtain ⟨f, rfl⟩ : ∃ f, fuel = f + 1 := ⟨fuel - 1, by omega⟩
                    have ih := parseStrBody_escape s' hvs' rest f (by omega)
                    rw [hecp, htraw]
                    show parseStrBody (f + 1) (c :: (escapeStr s' ++ (34 :: rest)))
                        = some (c :: rawOf s', rest)
                    simp only [parseStrBody, if_neg h34, if_neg h92,
                      if_neg (show ¬ c < 32 by omega)]
                    rw [ih]
                  · by_cases hbmp : c < 65536
                    · have htraw : toRaw c = [c] := by unfold toRaw; rw [if_pos hbmp]
                      have hecp : escapeCp c = escU c := by
                        unfold escapeCp
                        rw [if_neg h34, if_neg h92, if_neg h8, if_neg h9, if_neg h10, if_neg h12,
                          if_neg h13, if_neg hprint, if_pos hbmp]
                      rw [hraw, htraw] at hf
                      simp at hf
                      obtain ⟨f, rfl⟩ : ∃ f, fuel = f + 1 := ⟨fuel - 1, by omega⟩
                      have ih := parseStrBody_escape s' hvs' rest f (by omega)
                      rw [hecp, htraw]
                      simp only [List.append_assoc]
                      rw [parseStrBody_escU c hbmp f (escapeStr s' ++ (34 :: rest)), ih]
                      rfl
                    · have hc17 : c < 1114112 := hvc.1
                      have hhi : 55296 + (c - 65536) / 1024 < 65536 := by omega
                      have hlo : 56320 + (c - 65536) % 1024 < 65536 := by omega
                      have htraw : toRaw c =
                          [55296 + (c - 65536) / 1024, 56320 + (c - 65536) % 1024] := by
                        unfold toRaw; rw [if_neg (by omega)]
                      have hecp : escapeCp c = escU (55296 + (c - 65536) / 1024) ++
                          escU (56320 + (c - 65536) % 1024) := by
                        unfold escapeCp
                        rw [if_neg h34, if_neg h92, if_neg h8, if_neg h9, if_neg h10, if_neg h12,
                          if_neg h13, if_neg hprint, if_neg (by omega)]
                      rw [hraw, htraw] at hf
                      simp at hf
                      obtain ⟨f, rfl⟩ : ∃ f, fuel = f + 2 := ⟨fuel - 2, by omega⟩
                      have ih := parseStrBody_escape s' hvs' rest f (by omega)
                      rw [hecp, htraw]
                      simp only [List.append_assoc]
                      rw [show f + 2 = f + 1 + 1 from rfl]
                      rw [parseStrBody_escU _ hhi (f + 1)
                        (escU (56320 + (c - 65536) % 1024) ++ (escapeStr s' ++ (34 :: rest)))]
                      rw [parseStrBody_escU _ hlo f (escapeStr s' ++ (34 :: rest))]
                      rw [ih]
                      rfl

lemma toRaw_ne_nil (c : Nat) : toRaw c ≠ [] := by
  unfold toRaw
  split <;> simp

lemma rawOf_nil_iff : ∀ s : List Nat, rawOf s = [] → s = []
  | [] => fun _ => rfl
  | c :: s' => by
    intro h
    rw [show rawOf (c :: s') = toRaw c ++ rawOf s' from rfl] at h
    rcases List.append_eq_nil.mp h with ⟨h1, _⟩
    exact absurd h1 (toRaw_ne_nil c)

lemma deSurrogate_rawOf : ∀ s : List Nat, ValidStr s → deSurrogate (rawOf s) = s
  | [], _ => rfl
  | c :: s', hv => by
    have hvc : ValidCp c := hv c (by simp)
    have hvs' : ValidStr s' := fun x hx => hv x (by simp [hx])
    have ih := deSurrogate_rawOf s' hvs'
    by_cases hbmp : c < 65536
    · have htraw : toRaw c = [c] := by unfold toRaw; rw [if_pos hbmp]
      rw [show rawOf (c :: s') = toRaw c ++ rawOf s' from rfl, htraw]
      cases hr : rawOf s' with
      | nil =>
        have hs : s' = [] := rawOf_nil_iff s' hr
        subst hs
        rfl
      | cons b t =>
        have hcond : ¬ (55296 ≤ c ∧ c < 56320 ∧ 56320 ≤ b ∧ b < 57344) := by
          rcases hvc with ⟨_, hns⟩
          omega
        show deSurrogate (c :: b :: t) = c :: s'
        simp only [deSurrogate, if_neg hcond]
        rw [← hr, ih]
    · have h17 : c < 1114112 := hvc.1
      have htraw : toRaw c =
          [55296 + (c - 65536) / 1024, 56320 + (c - 65536) % 1024] := by
        unfold toRaw; rw [if_neg (by omega)]
      rw [show rawOf (c :: s') = toRaw c ++ rawOf s' from rfl, htraw]
      have hcond : 55296 ≤ 55296 + (c - 65536) / 1024 ∧ 55296 + (c - 65536) / 1024 < 56320 ∧
          56320 ≤ 56320 + (c - 65536) % 1024 ∧ 56320 + (c - 65536) % 1024 < 57344 :=
        ⟨by omega, by omega, by omega, by omega⟩
      show deSurrogate ((55296 + (c - 65536) / 1024) :: (56320 + (c - 65536) % 1024) :: rawOf s')
          = c :: s'
      simp only [deSurrogate, if_pos hcond]
      rw [ih]
      simp only [List.cons.injEq]
      exact ⟨by omega, trivial⟩

lemma toRaw_length_le (c : Nat) : (toRaw c).length ≤ (escapeCp c).length := by
  unfold toRaw escapeCp
  split_ifs <;> simp [escU] <;> omega

lemma rawOf_length_le : ∀ s : List Nat, (rawOf s).length ≤ (escapeStr s).length
  | [] => Nat.le_refl _
  | c :: s' => by
    rw [show rawOf (c :: s') = toRaw c ++ rawOf s' from rfl,
        show escapeStr (c :: s') = escapeCp c ++ escapeStr s' from rfl]
    simp only [List.length_append]
    have h1 := toRaw_length_le c
    have h2 := rawOf_length_le s'
    omega

/-- The JSON string parser inverts the serializer on every well-formed Unicode
string, leaving the rest of the input untouched. -/
lemma parseStr_escape (s rest : List Nat) (hv : ValidStr s) :
    parseStr (escapeStr s ++ (34 :: rest)) = some (s, rest) := by
  unfold parseStr
  rw [parseStrBody_escape s hv rest ((escapeStr s ++ (34 :: rest)).length + 1) (by
    have := rawOf_length_le s
    simp only [List.length_append, List.length_cons]
    omega)]
  show some (deSurrogate (rawOf s), rest) = some (s, rest)
  rw [deSurrogate_rawOf s hv]

lemma hexDig_lt128 (n : Nat) (h : n < 16) : hexDig n < 128 := by
  unfold hexDig
  split <;> omega

lemma escU_ascii (n : Nat) : ∀ x ∈ escU n, x < 128 := by
  intro x hx
  simp only [escU, List.mem_cons, List.not_mem_nil, or_false] at hx
  rcases hx with rfl | rfl | rfl | rfl | rfl | rfl
  · omega
  · omega
  · exact hexDig_lt128 _ (Nat.mod_lt _ (by decide))
  · exact hexDig_lt128 _ (Nat.mod_lt _ (by decide))
  · exact hexDig_lt128 _ (Nat.mod_lt _ (by decide))
  · exact hexDig_lt128 _ (Nat.mod_lt _ (by decide))

lemma escapeCp_ascii (c : Nat) : ∀ x ∈ escapeCp c, x < 128 := by
  intro x hx
  unfold escapeCp at hx
  split_ifs at hx with h1 h2 h3 h4 h5 h6 h7 h8 h9
  · simp at hx; omega
  · simp at hx; omega
  · simp at hx; omega
  · simp at hx; omega
  · simp at hx; omega
  · simp at hx; omega
  · simp at hx; omega
  · simp at hx; omega
  · exact escU_ascii c x hx
  · rw [List.mem_append] at hx
    rcases hx with hx | hx
    · exact escU_ascii _ x hx
    · exact escU_ascii _ x hx

lemma escapeStr_ascii : ∀ s : List Nat, ∀ x ∈ escapeStr s, x < 128
  | [] => by simp [escapeStr]
  | c :: s' => by
    intro x hx
    rw [show escapeStr (c :: s') = escapeCp c ++ escapeStr s' from rfl, List.mem_append] at hx
    rcases hx with hx | hx
    · exact escapeCp_ascii c x hx
    · exact escapeStr_ascii s' x hx

lemma jsonDumpsProof_ascii (p : PaymentProof) : ∀ x ∈ jsonDumpsProof p, x < 128 := by
  have hlitVer : ∀ x ∈ litVer, x < 128 := by decide
  have hlitSch : ∀ x ∈ litSch, x < 128 := by decide
  have hlitNet : ∀ x ∈ litNet, x < 128 := by decide
  have hlitPay : ∀ x ∈ litPay, x < 128 := by decide
  have hlitEnd : ∀ x ∈ litEnd, x < 128 := by decide
  intro x hx
  simp only [jsonDumpsProof, List.append_assoc, List.mem_append] at hx
  rcases hx with hx | hx | hx | hx | hx | hx | hx | hx | hx | hx | hx | hx
  · exact hlitVer x hx
  · have := natDigitsF_digits (p.x402Version + 1) p.x402Version x hx
    omega
  · exact hlitSch x hx
  · exact escapeStr_ascii _ x hx
  · simp at hx; omega
  · exact hlitNet x hx
  · exact escapeStr_ascii _ x hx
  · simp at hx; omega
  · exact hlitPay x hx
  · exact escapeStr_ascii _ x hx
  · simp at hx; omega
  · exact hlitEnd x hx

lemma expectTok_self (pat : List Nat) : expectTok pat pat = some [] := by
  have h := expectTok_append pat []
  rwa [List.append_nil] at h

lemma notDigitHead_litSch (tail : List Nat) : notDigitHead (litSch ++ tail) := by
  show ¬ (48 ≤ 44 ∧ 44 ≤ 57)
  omega

/-- Parsing the serialized proof object recovers the proof, field for field. -/
lemma parsePaymentProof_dumps (p : PaymentProof) (hs : ValidStr p.scheme)
    (hn : ValidStr p.network) (hp : ValidStr p.payload) :
    parsePaymentProof (jsonDumpsProof p) = some p := by
  obtain ⟨v, scheme, network, payload⟩ := p
  simp only [jsonDumpsProof] at *
  simp only [parsePaymentProof, List.append_assoc, List.cons_append, List.singleton_append,
    expectTok_append, parseNatTok_natDigits, notDigitHead_litSch]
  rw [parseStr_escape _ _ hs]
  simp only [List.nil_append, expectTok_append]
  rw [parseStr_escape _ _ hn]
  simp only [List.nil_append, expectTok_append]
  rw [parseStr_escape _ _ hp]
  simp only [List.nil_append, expectTok_self]
  simp

/-- Evaluation of the flow when the first response is not a 402. -/
lemma flow_non402 (env : Env) (h : (env.http targetUrl none).status ≠ 402) :
    manual_x402_solana_flow env =
      (.ok (env.http targetUrl none).body, [.httpGet targetUrl none]) := by
  unfold manual_x402_solana_flow
  dsimp only
  rw [if_pos h]

/-- Evaluation of the flow on a 402 whose `accepts` value is empty (falsy). -/
lemma flow_emptyAccepts (env : Env) (accepts : Json)
    (h402 : (env.http targetUrl none).status = 402)
    (hacc : (env.http targetUrl none).body.get (strLit "accepts") = some accepts)
    (hfal : accepts.falsy = true) :
    manual_x402_solana_flow env =
      (.error .noPaymentOptions, [.httpGet targetUrl none]) := by
  unfold manual_x402_solana_flow
  dsimp only
  rw [if_neg (by simp [h402]), hacc]
  dsimp only
  rw [if_pos hfal]

/-- Evaluation of the flow up to a failing RPC block-reference fetch. -/
lemma flow_rpcDown (env : Env) (d : Json) (ds : List Json) (payTo msg : List Nat)
    (h402 : (env.http targetUrl none).status = 402)
    (hacc : (env.http targetUrl none).body.get (strLit "accepts") = some (Json.arr (d :: ds)))
    (hpay : d.get (strLit "payTo") = some (Json.str payTo))
    (hbh : env.getLatestBlockhash = .error msg) :
    manual_x402_solana_flow env =
      (.error (.upstreamUnavailable msg),
       [.httpGet targetUrl none, .rpcGetLatestBlockhash]) := by
  unfold manual_x402_solana_flow
  dsimp only
  rw [if_neg (by simp [h402]), hacc]
  dsimp only
  rw [if_neg (by simp [Json.falsy])]
  dsimp only [Json.index0]
  rw [hpay]
  dsimp only [Json.asStr]
  rw [hbh]
  rfl

/-- Evaluation of the flow up to a failing signing-service call. -/
lemma flow_signDown (env : Env) (d : Json) (ds : List Json) (payTo bh msg : List Nat)
    (h402 : (env.http targetUrl none).status = 402)
    (hacc : (env.http targetUrl none).body.get (strLit "accepts") = some (Json.arr (d :: ds)))
    (hpay : d.get (strLit "payTo") = some (Json.str payTo))
    (hbh : env.getLatestBlockhash = .ok bh)
    (hsig : env.sign env.agentAddress (b64encode (env.serializeTx
      ⟨[⟨env.agentAddress, payTo, 1⟩], some bh, some env.agentAddress⟩ false)) = .error msg) :
    manual_x402_solana_flow env =
      (.error (.signingFailed msg),
       [.httpGet targetUrl none, .rpcGetLatestBlockhash,
        .signCall env.agentAddress (b64encode (env.serializeTx
          ⟨[⟨env.agentAddress, payTo, 1⟩], some bh, some env.agentAddress⟩ false)) none]) := by
  unfold manual_x402_solana_flow
  dsimp only
  rw [if_neg (by simp [h402]), hacc]
  dsimp only
  rw [if_neg (by simp [Json.falsy])]
  dsimp only [Json.index0]
  rw [hpay]
  dsimp only [Json.asStr]
  rw [hbh]
  dsimp only
  rw [hsig]
  rfl

/-- Evaluation of the flow on the happy path: 402 challenge, working RPC and
signer, one retry with the proof header. -/
lemma flow_success (env : Env) (d : Json) (ds : List Json) (payTo bh sig : List Nat)
    (h402 : (env.http targetUrl none).status = 402)
    (hacc : (env.http targetUrl none).body.get (strLit "accepts") = some (Json.arr (d :: ds)))
    (hpay : d.get (strLit "payTo") = some (Json.str payTo))
    (hbh : env.getLatestBlockhash = .ok bh)
    (hsig : env.sign env.agentAddress (b64encode (env.serializeTx
      ⟨[⟨env.agentAddress, payTo, 1⟩], some bh, some env.agentAddress⟩ false)) = .ok sig) :
    manual_x402_solana_flow env =
      (.ok (env.http targetUrl (some (encodeHeader ⟨1, strLit "exact", NETWORK, sig⟩))).body,
       [.httpGet targetUrl none, .rpcGetLatestBlockhash,
        .signCall env.agentAddress (b64encode (env.serializeTx
          ⟨[⟨env.agentAddress, payTo, 1⟩], some bh, some env.agentAddress⟩ false)) (some sig),
        .httpGet targetUrl (some (encodeHeader ⟨1, strLit "exact", NETWORK, sig⟩))]) := by
  unfold manual_x402_solana_flow
  dsimp only
  rw [if_neg (by simp [h402]), hacc]
  dsimp only
  rw [if_neg (by simp [Json.falsy])]
  dsimp only [Json.index0]
  rw [hpay]
  dsimp only [Json.asStr]
  rw [hbh]
  dsimp only
  rw [hsig]
  rfl

/-- Every trace of the flow has one of four shapes: first GET only; GET then
RPC fetch; GET, RPC fetch and a failed signing call; or the full happy path
ending in the retry GET that carries the proof header. -/
lemma flow_trace_shape (env : Env) :
    (manual_x402_solana_flow env).2 = [.httpGet targetUrl none] ∨
    (manual_x402_solana_flow env).2 =
      [.httpGet targetUrl none, .rpcGetLatestBlockhash] ∨
    (∃ a t, (manual_x402_solana_flow env).2 =
      [.httpGet targetUrl none, .rpcGetLatestBlockhash, .signCall a t none]) ∨
    (∃ a t s, (manual_x402_solana_flow env).2 =
      [.httpGet targetUrl none, .rpcGetLatestBlockhash, .signCall a t (some s),
       .httpGet targetUrl (some (encodeHeader ⟨1, strLit "exact", NETWORK, s⟩))]) := by
  by_cases h1 : (env.http targetUrl none).status ≠ 402
  · rw [flow_non402 env h1]
    exact Or.inl rfl
  have h402 : (env.http targetUrl none).status = 402 := by omega
  cases hacc : (env.http targetUrl none).body.get (strLit "accepts") with
  | none =>
    left
    unfold manual_x402_solana_flow
    dsimp only
    rw [if_neg (by simp [h402]), hacc]
  | some accepts =>
    by_cases hfal : accepts.falsy = true
    · rw [flow_emptyAccepts env accepts h402 hacc hfal]
      exact Or.inl rfl
    cases accepts with
    | arr l =>
      cases l with
      | nil => exact absurd rfl hfal
      | cons d ds =>
        cases hpay : d.get (strLit "payTo") with
        | none =>
          left
          unfold manual_x402_solana_flow
          dsimp only
          rw [if_neg (by simp [h402]), hacc]
          dsimp only
          rw [if_neg (by simp [Json.falsy])]
          dsimp only [Json.index0]
          rw [hpay]
        | some payToJson =>
          cases payToJson with
          | str payTo =>
            cases hbh : env.getLatestBlockhash with
            | error msg =>
              right; left
              rw [flow_rpcDown env d ds payTo msg h402 hacc hpay hbh]
            | ok bh =>
              cases hsig : env.sign env.agentAddress (b64encode (env.serializeTx
                  ⟨[⟨env.agentAddress, payTo, 1⟩], some bh, some env.agentAddress⟩ false)) with
              | error msg =>
                right; right; left
                exact ⟨_, _, by
                  rw [flow_signDown env d ds payTo bh msg h402 hacc hpay hbh hsig]⟩
              | ok sig =>
                right; right; right
                exact ⟨_, _, sig, by
                  rw [flow_success env d ds payTo bh sig h402 hacc hpay hbh hsig]⟩
          | null =>
            left
            unfold manual_x402_solana_flow
            dsimp only
            rw [if_neg (by simp [h402]), hacc]
            dsimp only
            rw [if_neg (by simp [Json.falsy])]
            dsimp only [Json.index0]
            rw [hpay]
            rfl
          | bool b =>
            left
            unfold manual_x402_solana_flow
            dsimp only
            rw [if_neg (by simp [h402]), hacc]
            dsimp only
            rw [if_neg (by simp [Json.falsy])]
            dsimp only [Json.index0]
            rw [hpay]
            rfl
          | num n =>
            left
            unfold manual_x402_solana_flow
            dsimp only
            rw [if_neg (by simp [h402]), hacc]
            dsimp only
            rw [if_neg (by simp [Json.falsy])]
            dsimp only [Json.index0]
            rw [hpay]
            rfl
          | arr l2 =>
            left
            unfold manual_x402_solana_flow
            dsimp only
            rw [if_neg (by simp [h402]), hacc]
            dsimp only
            rw [if_neg (by simp [Json.falsy])]
            dsimp only [Json.index0]
            rw [hpay]
            rfl
          | obj kvs =>
            left
            unfold manual_x402_solana_flow
            dsimp only
            rw [if_neg (by simp [h402]), hacc]
            dsimp only
            rw [if_neg (by simp [Json.falsy])]
            dsimp only [Json.index0]
            rw [hpay]
            rfl
    | null => exact absurd rfl hfal
    | bool b =>
      cases b with
      | true =>
        left
        unfold manual_x402_solana_flow
        dsimp only
        rw [if_neg (by simp [h402]), hacc]
        dsimp only
        rw [if_neg hfal]
        rfl
      | false => exact absurd rfl hfal
    | num n =>
      left
      unfold manual_x402_solana_flow
      dsimp only
      rw [if_neg (by simp [h402]), hacc]
      dsimp only
      rw [if_neg hfal]
      rfl
    | str s =>
      left
      unfold manual_x402_solana_flow
      dsimp only
      rw [if_neg (by simp [h402]), hacc]
      dsimp only
      rw [if_neg hfal]
      rfl
    | obj kvs =>
      left
      unfold manual_x402_solana_flow
      dsimp only
      rw [if_neg (by simp [h402]), hacc]
      dsimp only
      rw [if_neg hfal]
      rfl

/-- C7: for every PaymentProof whose string fields are well-formed Unicode
text, encoding it to the X-PAYMENT header value (base64 of its UTF-8 JSON
serialization) and then decoding that header value back (base64-decode,
UTF-8-decode, JSON-parse) yields a PaymentProof equal field-for-field to the
original. -/
theorem c7_header_roundtrip (p : PaymentProof) (hs : ValidStr p.scheme)
    (hn : ValidStr p.network) (hp : ValidStr p.payload) :
    decodeHeader (encodeHeader p) = some p := by
  have hascii := jsonDumpsProof_ascii p
  have hbytes : ∀ x ∈ jsonDumpsProof p, x < 256 := fun x hx => by
    have := hascii x hx
    omega
  unfold encodeHeader decodeHeader
  rw [utf8Encode_ascii _ hascii, b64_roundtrip _ hbytes]
  show (match utf8Decode (jsonDumpsProof p) with
        | some cps => parsePaymentProof cps
        | none => none) = some p
  rw [utf8Decode_ascii _ hascii]
  exact parsePaymentProof_dumps p hs hn hp

/-- Witness for C7 at a concrete proof value. -/
theorem c7_header_roundtrip_witness :
    ValidStr (strLit "exact") ∧ ValidStr (strLit "solana") ∧ ValidStr (strLit "SignedTx==") ∧
    decodeHeader (encodeHeader ⟨1, strLit "exact", strLit "solana", strLit "SignedTx=="⟩) =
      some ⟨1, strLit "exact", strLit "solana", strLit "SignedTx=="⟩ :=
  ⟨by decide, by decide, by decide,
   c7_header_roundtrip ⟨1, strLit "exact", strLit "solana", strLit "SignedTx=="⟩
     (by decide) (by decide) (by decide)⟩

/-- C1 (counterexample): at this concrete input the first response is a 402
whose chosen (first) descriptor offers scheme "otherscheme" on network
"base", the flow sends exactly one proof header, and that header decodes to a
proof whose scheme is "exact" and whose network is "solana" — so the proof's
`scheme` and `network` are not copied from the chosen descriptor, refuting the
claim as stated. -/
theorem c1_copied_counterexample :
    (envOtherScheme.http targetUrl none).status = 402 ∧
    chosenDescriptor envOtherScheme =
      some (demoDescriptor "otherscheme" "base" "Merchant999" "USDC" "0.01") ∧
    (demoDescriptor "otherscheme" "base" "Merchant999" "USDC" "0.01").get (strLit "scheme") =
      some (Json.str (strLit "otherscheme")) ∧
    (demoDescriptor "otherscheme" "base" "Merchant999" "USDC" "0.01").get (strLit "network") =
      some (Json.str (strLit "base")) ∧
    sentHeaders (manual_x402_solana_flow envOtherScheme).2 =
      [encodeHeader ⟨1, strLit "exact", NETWORK, strLit "SignedTx=="⟩] ∧
    decodeHeader (encodeHeader ⟨1, strLit "exact", NETWORK, strLit "SignedTx=="⟩) =
      some ⟨1, strLit "exact", NETWORK, strLit "SignedTx=="⟩ ∧
    strLit "exact" ≠ strLit "otherscheme" ∧ NETWORK ≠ strLit "base" :=
  ⟨rfl, rfl, rfl, rfl, rfl, rfl, by decide, by decide⟩

/-- C1 (amended): every header the flow ever sends encodes a proof whose
`scheme` is the constant "exact", whose `network` is the process-wide NETWORK
constant "solana" — regardless of the chosen descriptor's fields — and whose
`x402Version` is 1. -/
theorem c1_scheme_network_constant (env : Env) (h : List Nat)
    (hmem : h ∈ sentHeaders (manual_x402_solana_flow env).2) :
    ∃ sig, h = encodeHeader ⟨1, strLit "exact", NETWORK, sig⟩ := by
  rcases flow_trace_shape env with hsh | hsh | ⟨a, t, hsh⟩ | ⟨a, t, s, hsh⟩ <;>
    rw [hsh] at hmem <;>
    simp [sentHeaders] at hmem
  exact ⟨s, hmem⟩

/-- Witness for the amended C1 at a concrete environment. -/
theorem c1_scheme_network_constant_witness :
    encodeHeader ⟨1, strLit "exact", NETWORK, strLit "SignedTx=="⟩ ∈
      sentHeaders (manual_x402_solana_flow envHappy).2 ∧
    ∃ sig, encodeHeader ⟨1, strLit "exact", NETWORK, strLit "SignedTx=="⟩ =
      encodeHeader ⟨1, strLit "exact", NETWORK, sig⟩ := by
  have hmem : encodeHeader ⟨1, strLit "exact", NETWORK, strLit "SignedTx=="⟩ ∈
      sentHeaders (manual_x402_solana_flow envHappy).2 := by
    rw [show sentHeaders (manual_x402_solana_flow envHappy).2 =
      [encodeHeader ⟨1, strLit "exact", NETWORK, strLit "SignedTx=="⟩] from rfl]
    exact List.mem_singleton.mpr rfl
  exact ⟨hmem, c1_scheme_network_constant envHappy _ hmem⟩

/-- C2: on a first response with status 402 whose body's `accepts` sequence is
empty, the orchestration fails with `NoPaymentOptions` (the `ValueError` of
line 105) and the trace holds only the first GET — no RPC fetch, no signing
call, no retry. -/
theorem c2_empty_accepts_noPaymentOptions (env : Env)
    (h402 : (env.http targetUrl none).status = 402)
    (hacc : (env.http targetUrl none).body.get (strLit "accepts") = some (Json.arr [])) :
    manual_x402_solana_flow env =
      (.error .noPaymentOptions, [.httpGet targetUrl none]) :=
  flow_emptyAccepts env (Json.arr []) h402 hacc rfl

/-- Witness for C2 at a concrete environment. -/
theorem c2_empty_accepts_witness :
    (envEmptyAccepts.http targetUrl none).status = 402 ∧
    (envEmptyAccepts.http targetUrl none).body.get (strLit "accepts") = some (Json.arr []) ∧
    manual_x402_solana_flow envEmptyAccepts =
      (.error .noPaymentOptions, [.httpGet targetUrl none]) :=
  ⟨rfl, rfl, c2_empty_accepts_noPaymentOptions envEmptyAccepts rfl rfl⟩

/-- C3: on a first response with status ≠ 402 the orchestrator returns that
response's parsed body as the result and the trace holds only the first GET —
no proof is built, no RPC or signing call happens, no second request is sent. -/
theorem c3_non402_returns_body (env : Env)
    (h : (env.http targetUrl none).status ≠ 402) :
    manual_x402_solana_flow env =
      (.ok (env.http targetUrl none).body, [.httpGet targetUrl none]) :=
  flow_non402 env h

/-- Witness for C3 at a concrete environment. -/
theorem c3_non402_witness :
    (envNo402.http targetUrl none).status ≠ 402 ∧
    manual_x402_solana_flow envNo402 =
      (.ok (envNo402.http targetUrl none).body, [.httpGet targetUrl none]) :=
  ⟨by decide, c3_non402_returns_body envNo402 (by decide)⟩

/-- C4: on a 402 with non-empty `accepts`, the flow selects the descriptor at
index 0, fetches the recent block reference, builds a 1-lamport native
transfer from the agent address to that descriptor's `payTo` with the agent as
fee payer and the fetched block reference attached, serializes it without
requiring all signatures, base64-encodes it and submits it to the signing
service keyed by the agent's address — as the resulting trace records. -/
theorem c4_proof_builder (env : Env) (d : Json) (ds : List Json) (payTo bh sig : List Nat)
    (h402 : (env.http targetUrl none).status = 402)
    (hacc : (env.http targetUrl none).body.get (strLit "accepts") = some (Json.arr (d :: ds)))
    (hpay : d.get (strLit "payTo") = some (Json.str payTo))
    (hbh : env.getLatestBlockhash = .ok bh)
    (hsig : env.sign env.agentAddress (b64encode (env.serializeTx
      ⟨[⟨env.agentAddress, payTo, 1⟩], some bh, some env.agentAddress⟩ false)) = .ok sig) :
    manual_x402_solana_flow env =
      (.ok (env.http targetUrl (some (encodeHeader ⟨1, strLit "exact", NETWORK, sig⟩))).body,
       [.httpGet targetUrl none, .rpcGetLatestBlockhash,
        .signCall env.agentAddress (b64encode (env.serializeTx
          ⟨[⟨env.agentAddress, payTo, 1⟩], some bh, some env.agentAddress⟩ false)) (some sig),
        .httpGet targetUrl (some (encodeHeader ⟨1, strLit "exact", NETWORK, sig⟩))]) :=
  flow_success env d ds payTo bh sig h402 hacc hpay hbh hsig

/-- Witness for C4 at a concrete environment. -/
theorem c4_proof_builder_witness :
    (envHappy.http targetUrl none).status = 402 ∧
    (envHappy.http targetUrl none).body.get (strLit "accepts") =
      some (Json.arr (demoDescriptor "exact" "solana" "Merchant999" "USDC" "0.01" :: [])) ∧
    (demoDescriptor "exact" "solana" "Merchant999" "USDC" "0.01").get (strLit "payTo") =
      some (Json.str (strLit "Merchant999")) ∧
    envHappy.getLatestBlockhash = .ok (strLit "Blockhash11") ∧
    envHappy.sign envHappy.agentAddress (b64encode (envHappy.serializeTx
      ⟨[⟨envHappy.agentAddress, strLit "Merchant999", 1⟩], some (strLit "Blockhash11"),
       some envHappy.agentAddress⟩ false)) = .ok (strLit "SignedTx==") ∧
    manual_x402_solana_flow envHappy =
      (.ok (envHappy.http targetUrl
        (some (encodeHeader ⟨1, strLit "exact", NETWORK, strLit "SignedTx=="⟩))).body,
       [.httpGet targetUrl none, .rpcGetLatestBlockhash,
        .signCall envHappy.agentAddress (b64encode (envHappy.serializeTx
          ⟨[⟨envHappy.agentAddress, strLit "Merchant999", 1⟩], some (strLit "Blockhash11"),
           some envHappy.agentAddress⟩ false)) (some (strLit "SignedTx==")),
        .httpGet targetUrl
          (some (encodeHeader ⟨1, strLit "exact", NETWORK, strLit "SignedTx=="⟩))]) :=
  ⟨rfl, rfl, rfl, rfl, rfl,
   c4_proof_builder envHappy (demoDescriptor "exact" "solana" "Merchant999" "USDC" "0.01") []
     (strLit "Merchant999") (strLit "Blockhash11") (strLit "SignedTx==") rfl rfl rfl rfl rfl⟩

/-- C5: within every single orchestrator invocation at most one
signing-service call occurs, a header-carrying (retry) GET appears in the
trace only after a signing call that returned a signature, and no
chain-broadcast RPC event ever occurs. -/
theorem c5_one_sign_no_broadcast (env : Env) :
    (manual_x402_solana_flow env).2.countP isSignEvent ≤ 1 ∧
    (manual_x402_solana_flow env).2.countP isBroadcastEvent = 0 ∧
    retryOnlyAfterSuccessfulSign (manual_x402_solana_flow env).2 = true := by
  rcases flow_trace_shape env with hsh | hsh | ⟨a, t, hsh⟩ | ⟨a, t, s, hsh⟩ <;>
    rw [hsh] <;>
    exact ⟨by simp [List.countP_cons, isSignEvent],
           by simp [List.countP_cons, isBroadcastEvent],
           by rfl⟩

/-- C6: when proof building succeeds, the flow issues exactly one retry GET, to
the same target URL as the first request, carrying the base64-encoded JSON
proof as its header, and returns the second response's parsed body with no
inspection of the second status code. -/
theorem c6_single_retry_same_url (env : Env) (d : Json) (ds : List Json)
    (payTo bh sig : List Nat)
    (h402 : (env.http targetUrl none).status = 402)
    (hacc : (env.http targetUrl none).body.get (strLit "accepts") = some (Json.arr (d :: ds)))
    (hpay : d.get (strLit "payTo") = some (Json.str payTo))
    (hbh : env.getLatestBlockhash = .ok bh)
    (hsig : env.sign env.agentAddress (b64encode (env.serializeTx
      ⟨[⟨env.agentAddress, payTo, 1⟩], some bh, some env.agentAddress⟩ false)) = .ok sig) :
    requestUrls (manual_x402_solana_flow env).2 = [targetUrl, targetUrl] ∧
    sentHeaders (manual_x402_solana_flow env).2 =
      [encodeHeader ⟨1, strLit "exact", NETWORK, sig⟩] ∧
    (manual_x402_solana_flow env).1 =
      .ok (env.http targetUrl (some (encodeHeader ⟨1, strLit "exact", NETWORK, sig⟩))).body := by
  rw [flow_success env d ds payTo bh sig h402 hacc hpay hbh hsig]
  exact ⟨rfl, rfl, rfl⟩

/-- Witness for C6 at a concrete environment. -/
theorem c6_single_retry_witness :
    (envHappy.http targetUrl none).status = 402 ∧
    requestUrls (manual_x402_solana_flow envHappy).2 = [targetUrl, targetUrl] ∧
    sentHeaders (manual_x402_solana_flow envHappy).2 =
      [encodeHeader ⟨1, strLit "exact", NETWORK, strLit "SignedTx=="⟩] ∧
    (manual_x402_solana_flow envHappy).1 =
      .ok (envHappy.http targetUrl
        (some (encodeHeader ⟨1, strLit "exact", NETWORK, strLit "SignedTx=="⟩))).body := by
  have h := c6_single_retry_same_url envHappy
    (demoDescriptor "exact" "solana" "Merchant999" "USDC" "0.01") []
    (strLit "Merchant999") (strLit "Blockhash11") (strLit "SignedTx==") rfl rfl rfl rfl rfl
  exact ⟨rfl, h.1, h.2.1, h.2.2⟩

/-- C8: when the RPC service is unreachable during proof building, the
orchestration fails with `UpstreamUnavailable` carrying the RPC error, the
failure is the flow's result (propagated, not swallowed), and the trace ends
at the RPC fetch — no signing call and no retry request ever happen. -/
theorem c8_rpc_unavailable (env : Env) (d : Json) (ds : List Json) (payTo msg : List Nat)
    (h402 : (env.http targetUrl none).status = 402)
    (hacc : (env.http targetUrl none).body.get (strLit "accepts") = some (Json.arr (d :: ds)))
    (hpay : d.get (strLit "payTo") = some (Json.str payTo))
    (hbh : env.getLatestBlockhash = .error msg) :
    manual_x402_solana_flow env =
      (.error (.upstreamUnavailable msg),
       [.httpGet targetUrl none, .rpcGetLatestBlockhash]) :=
  flow_rpcDown env d ds payTo msg h402 hacc hpay hbh

/-- Witness for C8 at a concrete environment. -/
theorem c8_rpc_unavailable_witness :
    (envRpcDown.http targetUrl none).status = 402 ∧
    envRpcDown.getLatestBlockhash = .error (strLit "rpc connection refused") ∧
    manual_x402_solana_flow envRpcDown =
      (.error (.upstreamUnavailable (strLit "rpc connection refused")),
       [.httpGet targetUrl none, .rpcGetLatestBlockhash]) :=
  ⟨rfl, rfl,
   c8_rpc_unavailable envRpcDown (demoDescriptor "exact" "solana" "Merchant999" "USDC" "0.01")
     [] (strLit "Merchant999") (strLit "rpc connection refused") rfl rfl rfl rfl⟩

/-- C9: whenever the orchestration raises, the outer handler returns an HTTP
500 whose `detail` is the interpolated message containing the exception's
string description (never re-raising), and whenever the orchestration returns
normally its result is returned as-is. -/
theorem c9_wrapper_500 (env : Env) :
    (∀ e, (manual_x402_solana_flow env).1 = .error e →
      run_zerebro_agent_wrapper env =
        ⟨500, Json.obj [(strLit "detail",
          Json.str (strLit "Wrapper Execution Error: " ++ errStr e))]⟩ ∧
      ∃ pre post, strLit "Wrapper Execution Error: " ++ errStr e = pre ++ errStr e ++ post) ∧
    (∀ j, (manual_x402_solana_flow env).1 = .ok j →
      run_zerebro_agent_wrapper env = ⟨200, j⟩) := by
  constructor
  · intro e he
    refine ⟨?_, strLit "Wrapper Execution Error: ", [], by simp⟩
    unfold run_zerebro_agent_wrapper
    rw [he]
  · intro j hj
    unfold run_zerebro_agent_wrapper
    rw [hj]

/-- C10: two environments that differ only in the first 402 response — same
RPC, serializer and signing behavior, first descriptors sharing the same
`payTo` but otherwise arbitrary — produce byte-identical X-PAYMENT headers:
the proof depends on no descriptor field other than `payTo`. -/
theorem c10_header_depends_only_on_payTo
    (env1 env2 : Env) (d1 d2 : Json) (ds1 ds2 : List Json) (payTo bh sig : List Nat)
    (hagent : env2.agentAddress = env1.agentAddress)
    (hrpc1 : env1.getLatestBlockhash = .ok bh)
    (hrpc2 : env2.getLatestBlockhash = .ok bh)
    (hser : env2.serializeTx = env1.serializeTx)
    (hsign : env2.sign = env1.sign)
    (h402a : (env1.http targetUrl none).status = 402)
    (h402b : (env2.http targetUrl none).status = 402)
    (hacc1 : (env1.http targetUrl none).body.get (strLit "accepts") = some (Json.arr (d1 :: ds1)))
    (hacc2 : (env2.http targetUrl none).body.get (strLit "accepts") = some (Json.arr (d2 :: ds2)))
    (hpay1 : d1.get (strLit "payTo") = some (Json.str payTo))
    (hpay2 : d2.get (strLit "payTo") = some (Json.str payTo))
    (hsig1 : env1.sign env1.agentAddress (b64encode (env1.serializeTx
      ⟨[⟨env1.agentAddress, payTo, 1⟩], some bh, some env1.agentAddress⟩ false)) = .ok sig) :
    sentHeaders (manual_x402_solana_flow env1).2 =
      sentHeaders (manual_x402_solana_flow env2).2 ∧
    sentHeaders (manual_x402_solana_flow env1).2 =
      [encodeHeader ⟨1, strLit "exact", NETWORK, sig⟩] := by
  have hsig2 : env2.sign env2.agentAddress (b64encode (env2.serializeTx
      ⟨[⟨env2.agentAddress, payTo, 1⟩], some bh, some env2.agentAddress⟩ false)) = .ok sig := by
    rw [hagent, hser, hsign]
    exact hsig1
  have h1 := flow_success env1 d1 ds1 payTo bh sig h402a hacc1 hpay1 hrpc1 hsig1
  have h2 := flow_success env2 d2 ds2 payTo bh sig h402b hacc2 hpay2 hrpc2 hsig2
  rw [h1, h2]
  exact ⟨rfl, rfl⟩

/-- Witness for C10 at two concrete environments whose descriptors differ in
scheme-irrelevant fields (`asset`, `amount`) but share `payTo`. -/
theorem c10_header_witness :
    sentHeaders (manual_x402_solana_flow envHappy).2 =
      sentHeaders (manual_x402_solana_flow envOtherAmount).2 ∧
    sentHeaders (manual_x402_solana_flow envHappy).2 =
      [encodeHeader ⟨1, strLit "exact", NETWORK, strLit "SignedTx=="⟩] :=
  c10_header_depends_only_on_payTo envHappy envOtherAmount
    (demoDescriptor "exact" "solana" "Merchant999" "USDC" "0.01")
    (demoDescriptor "exact" "solana" "Merchant999" "DAI" "123.45") [] []
    (strLit "Merchant999") (strLit "Blockhash11") (strLit "SignedTx==")
    rfl rfl rfl rfl rfl rfl rfl rfl rfl rfl rfl rfl

end X402
